import Mathlib

/-!
Shallow embedding of the `pycharm_agent` backend core, translated from
`backend/services/llm_service.py`, `backend/routers/config.py`,
`backend/routers/chat.py` and `backend/services/config_manager.py`,
together with theorems settling the specification's claims about the
retry/backoff policy, key rotation, masking, streaming error handling
and configuration loading.
-/

namespace LlmSpec

/-- ASCII lowercasing of one character (the error messages classified by
`_retry_with_backoff` are ASCII, so this models Python's `str.lower`). -/
def lowerChar (c : Char) : Char :=
  if 65 ≤ c.toNat ∧ c.toNat ≤ 90 then Char.ofNat (c.toNat + 32) else c

/-- ASCII lowercasing of a string, modelling Python's `error_msg.lower()`. -/
def lowerStr (s : String) : String :=
  ⟨s.data.map lowerChar⟩

/-- Substring test over strings, modelling Python's `needle in hay`. -/
def strContains (hay needle : String) : Bool :=
  (List.range (hay.data.length + 1)).any fun i => needle.data.isPrefixOf (hay.data.drop i)

/-- From `_retry_with_backoff`: `"rate limit" in error_msg.lower() or "(429)" in error_msg`. -/
def isRateLimitMsg (msg : String) : Bool :=
  strContains (lowerStr msg) "rate limit" || strContains msg "(429)"

/-- From `_retry_with_backoff`: `"overloaded" in error_msg.lower() or "(503)" in error_msg`. -/
def isOverloadMsg (msg : String) : Bool :=
  strContains (lowerStr msg) "overloaded" || strContains msg "(503)"

/-- From `_retry_with_backoff`: `"API error" in error_msg and "rate limit" not in error_msg.lower()`. -/
def isApiErrorMsg (msg : String) : Bool :=
  strContains msg "API error" && !(strContains (lowerStr msg) "rate limit")

/-- From `_retry_with_backoff`: `"timeout" in error_msg.lower()`. -/
def hasTimeoutWord (msg : String) : Bool :=
  strContains (lowerStr msg) "timeout"

/-- A failure raised by the wrapped operation: either `asyncio.TimeoutError`
(caught by the first `except` clause) or a generic `Exception` carrying a
message (caught by the second clause, classified by substring tests). -/
inductive Failure where
  | pyTimeout : Failure
  | exc (msg : String) : Failure
deriving DecidableEq, Repr

/-- How a call to `_retry_with_backoff` ends: return a value, propagate an
exception, or fall off the `for` loop (only possible when `max_retries = 0`,
in which case Python returns `None`). -/
inductive RunResult (α : Type) where
  | value (a : α) : RunResult α
  | raised (e : Failure) : RunResult α
  | fellThrough : RunResult α
deriving DecidableEq, Repr

/-- Observable trace of one `_retry_with_backoff` run: how many times the
operation was invoked, the `asyncio.sleep` durations in order, the outcome,
and the final state of the closed-over mutable environment. -/
structure RetryTrace (σ α : Type) where
  calls : Nat
  sleeps : List Nat
  result : RunResult α
  finalState : σ
deriving DecidableEq, Repr

/-- Loop body of `_retry_with_backoff` from `llm_service.py` (lines 102-164).
`op` is the wrapped operation: it receives the attempt index and the current
state of the enclosing mutable environment (Python closures mutate `nonlocal`
variables) and returns the new state plus either a value or a raised failure.
The recursion is on the number of remaining loop iterations. -/
def retryAux {σ α : Type} (op : Nat → σ → σ × Except Failure α) (maxRetries : Nat) :
    Nat → Nat → σ → RetryTrace σ α
  | 0, _, st => ⟨0, [], .fellThrough, st⟩
  | rem + 1, attempt, st =>
    match op attempt st with
    | (st1, .ok a) => ⟨1, [], .value a, st1⟩
    | (st1, .error .pyTimeout) =>
      if attempt < maxRetries - 1 then
        let t := retryAux op maxRetries rem (attempt + 1) st1
        ⟨t.calls + 1, 2 ^ attempt * 3 :: t.sleeps, t.result, t.finalState⟩
      else
        ⟨1, [], .raised (.exc ("Request timeout after " ++ toString maxRetries ++ " retries")), st1⟩
    | (st1, .error (.exc msg)) =>
      if isRateLimitMsg msg then
        if attempt < maxRetries - 1 then
          let t := retryAux op maxRetries rem (attempt + 1) st1
          ⟨t.calls + 1, (40 + attempt * 20) :: t.sleeps, t.result, t.finalState⟩
        else
          ⟨1, [],
            .raised (.exc ("Rate limit exceeded after " ++ toString maxRetries ++
              " retries. Please wait a minute and try again.")), st1⟩
      else if isOverloadMsg msg then
        if attempt < maxRetries - 1 then
          let t := retryAux op maxRetries rem (attempt + 1) st1
          ⟨t.calls + 1, 2 ^ attempt * 5 :: t.sleeps, t.result, t.finalState⟩
        else
          ⟨1, [], .raised (.exc msg), st1⟩
      else if isApiErrorMsg msg then
        ⟨1, [], .raised (.exc msg), st1⟩
      else if hasTimeoutWord msg then
        ⟨1, [], .raised (.exc msg), st1⟩
      else
        if attempt < maxRetries - 1 then
          let t := retryAux op maxRetries rem (attempt + 1) st1
          ⟨t.calls + 1, 2 ^ attempt * 2 :: t.sleeps, t.result, t.finalState⟩
        else
          ⟨1, [], .raised (.exc msg), st1⟩

/-- `_retry_with_backoff(operation, max_retries)`: run the loop from
attempt `0` with all `max_retries` iterations remaining. -/
def retryWithBackoff {σ α : Type} (op : Nat → σ → σ × Except Failure α)
    (maxRetries : Nat) (st : σ) : RetryTrace σ α :=
  retryAux op maxRetries maxRetries 0 st

/-- An operation that fails identically on every attempt, leaving the
environment untouched (used to simulate a deterministic failing call). -/
def constFailOp (f : Failure) : Nat → Unit → Unit × Except Failure Unit :=
  fun _ _ => ((), .error f)

example : (retryWithBackoff (constFailOp .pyTimeout) 3 ()).sleeps = [3, 6] := by decide

example :
    (retryWithBackoff (constFailOp (.exc "No valid response from Gemini API")) 3 ()).calls = 3 := by
  decide

/-- The loop body invokes the operation at most once per remaining iteration. -/
theorem retryAux_calls_le {σ α : Type} (op : Nat → σ → σ × Except Failure α) (mr : Nat) :
    ∀ rem att st, (retryAux op mr rem att st).calls ≤ rem := by
  intro rem
  induction rem with
  | zero => intro att st; exact Nat.le.refl
  | succ r ih =>
    intro att st
    rcases hop : op att st with ⟨st1, res⟩
    rcases res with f | a
    · rcases f with _ | msg
      · simp only [retryAux, hop]
        split
        · have hanon := ih (att + 1) st1
          simp only
          omega
        · simp only
          omega
      · simp only [retryAux, hop]
        repeat' split
        all_goals simp only
        all_goals (try omega)
        all_goals (have hrec := ih (att + 1) st1; omega)
    · simp only [retryAux, hop]
      omega

/-- Master lemma: a run of the loop against an operation that fails
identically on every attempt, where each iteration either sleeps `w attempt`
and continues, or (at the last attempt) raises `fin`. -/
theorem retryAux_constFail_run (f : Failure) (w : Nat → Nat) (fin : Failure) (mr : Nat)
    (hstep : ∀ rem att,
      retryAux (constFailOp f) mr (rem + 1) att () =
        if att < mr - 1 then
          ⟨(retryAux (constFailOp f) mr rem (att + 1) ()).calls + 1,
            w att :: (retryAux (constFailOp f) mr rem (att + 1) ()).sleeps,
            (retryAux (constFailOp f) mr rem (att + 1) ()).result,
            (retryAux (constFailOp f) mr rem (att + 1) ()).finalState⟩
        else ⟨1, [], .raised fin, ()⟩) :
    ∀ rem att, 1 ≤ rem → att + rem = mr →
      retryAux (constFailOp f) mr rem att () =
        ⟨rem, (List.range (rem - 1)).map (fun k => w (att + k)), .raised fin, ()⟩ := by
  intro rem
  induction rem with
  | zero => intro att h1 _; exact absurd h1 (by omega)
  | succ r ih =>
    intro att _ h2
    rcases Nat.eq_zero_or_pos r with hr | hr
    · subst hr
      have hatt : ¬(att < mr - 1) := by omega
      rw [hstep 0 att, if_neg hatt]
      simp
    · have hatt : att < mr - 1 := by omega
      rw [hstep r att, if_pos hatt, ih (att + 1) hr (by omega)]
      dsimp only
      congr 1
      obtain ⟨r1, rfl⟩ : ∃ r1, r = r1 + 1 := ⟨r - 1, by omega⟩
      rw [show r1 + 1 + 1 - 1 = r1 + 1 from rfl, show r1 + 1 - 1 = r1 from rfl,
        List.range_succ_eq_map]
      simp only [List.map_cons, List.map_map, Nat.add_zero]
      congr 1
      apply List.map_congr_left
      intro k _
      simp only [Function.comp_apply]
      congr 1
      omega

/-- C5 (confirmed): for every wrapped operation the loop invokes the
operation at most `max_retries` times, and an operation that times out on
every attempt is retried with waits `3 * 2 ^ attempt` and ends with a raised
timeout error after the configured attempt count is exhausted. -/
theorem c5_timeout_retry_policy (mr : Nat) (hmr : 1 ≤ mr) :
    (∀ (σ α : Type) (op : Nat → σ → σ × Except Failure α) (st : σ),
        (retryWithBackoff op mr st).calls ≤ mr) ∧
    retryWithBackoff (constFailOp .pyTimeout) mr () =
      ⟨mr, (List.range (mr - 1)).map (fun k => 2 ^ k * 3),
        .raised (.exc ("Request timeout after " ++ toString mr ++ " retries")), ()⟩ := by
  constructor
  · intro σ α op st
    exact retryAux_calls_le op mr mr 0 st
  · have h := retryAux_constFail_run .pyTimeout (fun a => 2 ^ a * 3)
      (.exc ("Request timeout after " ++ toString mr ++ " retries")) mr
      (fun rem att => rfl) mr 0 hmr (by omega)
    simpa [retryWithBackoff] using h

/-- C5 witness: with the default `max_retries = 3`, a constantly timing-out
operation is called 3 times, sleeps 3 then 6 seconds, and raises the timeout
error. -/
theorem c5_timeout_retry_policy_wit :
    (∀ (σ α : Type) (op : Nat → σ → σ × Except Failure α) (st : σ),
        (retryWithBackoff op 3 st).calls ≤ 3) ∧
    retryWithBackoff (constFailOp .pyTimeout) 3 () =
      ⟨3, (List.range 2).map (fun k => 2 ^ k * 3),
        .raised (.exc ("Request timeout after " ++ toString 3 ++ " retries")), ()⟩ :=
  c5_timeout_retry_policy 3 (by decide)

/-- C6 (confirmed): a failure carrying a rate-limit marker is retried with a
long linearly-growing wait `40 + attempt * 20` seconds, and once the attempt
count is exhausted a rate-limit-exceeded error is raised. -/
theorem c6_rate_limit_backoff (mr : Nat) (hmr : 1 ≤ mr) (msg : String)
    (hrl : isRateLimitMsg msg = true) :
    retryWithBackoff (constFailOp (.exc msg)) mr () =
      ⟨mr, (List.range (mr - 1)).map (fun k => 40 + k * 20),
        .raised (.exc ("Rate limit exceeded after " ++ toString mr ++
          " retries. Please wait a minute and try again.")), ()⟩ ∧
    (∀ k, 40 ≤ 40 + k * 20 ∧ 40 + (k + 1) * 20 = (40 + k * 20) + 20) := by
  refine ⟨?_, fun k => ⟨by omega, by omega⟩⟩
  have h := retryAux_constFail_run (.exc msg) (fun a => 40 + a * 20)
    (.exc ("Rate limit exceeded after " ++ toString mr ++
      " retries. Please wait a minute and try again.")) mr
    (by intro rem att; simp only [retryAux, constFailOp, hrl, if_true]) mr 0 hmr (by omega)
  simpa [retryWithBackoff] using h

/-- C6 witness: a Gemini `(429)` message with `max_retries = 3` sleeps 40
then 60 seconds and raises the rate-limit-exceeded error. -/
theorem c6_rate_limit_backoff_wit :
    retryWithBackoff (constFailOp (.exc "Gemini API rate limit (429): quota")) 3 () =
      ⟨3, (List.range 2).map (fun k => 40 + k * 20),
        .raised (.exc ("Rate limit exceeded after " ++ toString 3 ++
          " retries. Please wait a minute and try again.")), ()⟩ ∧
    (∀ k, 40 ≤ 40 + k * 20 ∧ 40 + (k + 1) * 20 = (40 + k * 20) + 20) :=
  c6_rate_limit_backoff 3 (by decide) "Gemini API rate limit (429): quota" (by decide)

/-- C1 counterexample: a malformed-response failure (the parser's message
`No valid response from Gemini API`, which matches none of the timeout,
rate-limit, overload, `API error` or `timeout`-word patterns) is NOT failed
immediately: with `max_retries = 3` the operation runs 3 times with backoff
sleeps 2 and 4 seconds, contradicting the claimed single invocation with no
sleep. -/
theorem c1_malformed_retried_cex :
    (retryWithBackoff (constFailOp (.exc "No valid response from Gemini API")) 3 ()).calls = 3 ∧
    (retryWithBackoff (constFailOp (.exc "No valid response from Gemini API")) 3 ()).sleeps
      = [2, 4] ∧
    ¬((retryWithBackoff (constFailOp (.exc "No valid response from Gemini API")) 3 ()).calls
      = 1) := by
  decide

/-- C1 (corrected): a failure that is neither a timeout nor rate-limit nor
overload fails immediately (one invocation, no sleep) only when its message
contains `API error` or `timeout`; any other unmatched failure — including a
malformed response body — is treated as a network error and retried with
exponential backoff `2 * 2 ^ attempt`, the original error being re-raised
after the attempt count is exhausted. -/
theorem c1_other_error_classification (mr : Nat) (hmr : 1 ≤ mr) (msg : String)
    (hrl : isRateLimitMsg msg = false) (hov : isOverloadMsg msg = false) :
    (isApiErrorMsg msg = true ∨ hasTimeoutWord msg = true →
      retryWithBackoff (constFailOp (.exc msg)) mr () = ⟨1, [], .raised (.exc msg), ()⟩) ∧
    (isApiErrorMsg msg = false → hasTimeoutWord msg = false →
      retryWithBackoff (constFailOp (.exc msg)) mr () =
        ⟨mr, (List.range (mr - 1)).map (fun k => 2 ^ k * 2), .raised (.exc msg), ()⟩) := by
  constructor
  · intro hcase
    obtain ⟨m, rfl⟩ : ∃ m, mr = m + 1 := ⟨mr - 1, by omega⟩
    rcases hcase with hapi | htw
    · simp only [retryWithBackoff, retryAux, constFailOp, hrl, hov, hapi,
        Bool.false_eq_true, if_false, if_true]
    · rcases hapi : isApiErrorMsg msg with _ | _
      · simp only [retryWithBackoff, retryAux, constFailOp, hrl, hov, hapi, htw,
          Bool.false_eq_true, if_false, if_true]
      · simp only [retryWithBackoff, retryAux, constFailOp, hrl, hov, hapi,
          Bool.false_eq_true, if_false, if_true]
  · intro hapi htw
    have h := retryAux_constFail_run (.exc msg) (fun a => 2 ^ a * 2) (.exc msg) mr
      (by intro rem att; simp only [retryAux, constFailOp, hrl, hov, hapi, htw,
        Bool.false_eq_true, if_false]) mr 0 hmr (by omega)
    simpa [retryWithBackoff] using h

/-- C1 witness: an `API error` message (not rate-limited) fails on the first
attempt with no retry; a plain network error message is retried 3 times with
sleeps 2 and 4. -/
theorem c1_other_error_classification_wit :
    retryWithBackoff (constFailOp (.exc "Gemini API error: bad request")) 3 () =
      ⟨1, [], .raised (.exc "Gemini API error: bad request"), ()⟩ :=
  (c1_other_error_classification 3 (by decide) "Gemini API error: bad request"
    (by decide) (by decide)).1 (Or.inl (by decide))

/-- C2 counterexample: the overload (503) backoff uses base 5 while the
timeout backoff uses base 3 — the first overload wait (5 s) is NOT strictly
smaller than the first timeout wait (3 s), contradicting `base_o < base_t`. -/
theorem c2_overload_base_cex :
    (retryWithBackoff (constFailOp (.exc "Gemini API overloaded (503): busy")) 3 ()).sleeps
      = [5, 10] ∧
    (retryWithBackoff (constFailOp .pyTimeout) 3 ()).sleeps = [3, 6] ∧
    ¬((retryWithBackoff (constFailOp (.exc "Gemini API overloaded (503): busy")) 3
        ()).sleeps.headI
      < (retryWithBackoff (constFailOp .pyTimeout) 3 ()).sleeps.headI) := by
  decide

/-- C2 (corrected): the overload backoff is `5 * 2 ^ attempt` and the timeout
backoff is `3 * 2 ^ attempt`: both exponential with the same doubling, but the
overload base (5) is strictly LARGER than the timeout base (3), not smaller;
exhausting the overload retries re-raises the original error. -/
theorem c2_overload_timeout_bases (mr : Nat) (hmr : 1 ≤ mr) (msg : String)
    (hov : isOverloadMsg msg = true) (hrl : isRateLimitMsg msg = false) :
    (retryWithBackoff (constFailOp (.exc msg)) mr ()).sleeps
      = (List.range (mr - 1)).map (fun k => 2 ^ k * 5) ∧
    (retryWithBackoff (constFailOp .pyTimeout) mr ()).sleeps
      = (List.range (mr - 1)).map (fun k => 2 ^ k * 3) ∧
    (retryWithBackoff (constFailOp (.exc msg)) mr ()).result = .raised (.exc msg) ∧
    (∀ k, 2 ^ k * 3 < 2 ^ k * 5) := by
  have hov' := retryAux_constFail_run (.exc msg) (fun a => 2 ^ a * 5) (.exc msg) mr
    (by intro rem att; simp only [retryAux, constFailOp, hrl, hov,
      Bool.false_eq_true, if_false, if_true]) mr 0 hmr (by omega)
  have hto := retryAux_constFail_run .pyTimeout (fun a => 2 ^ a * 3)
    (.exc ("Request timeout after " ++ toString mr ++ " retries")) mr
    (fun rem att => rfl) mr 0 hmr (by omega)
  refine ⟨?_, ?_, ?_, fun k => ?_⟩
  · simpa [retryWithBackoff] using congrArg RetryTrace.sleeps hov'
  · simpa [retryWithBackoff] using congrArg RetryTrace.sleeps hto
  · simpa [retryWithBackoff] using congrArg RetryTrace.result hov'
  · have hpos : 0 < 2 ^ k := Nat.pos_pow_of_pos k (by omega)
    omega

/-- C2 witness: for the overload message above with `max_retries = 3`, the
overload sleeps are [5, 10], the timeout sleeps [3, 6], the original overload
error is re-raised, and each overload wait exceeds the timeout wait. -/
theorem c2_overload_timeout_bases_wit :
    (retryWithBackoff (constFailOp (.exc "Gemini API overloaded (503): busy")) 3 ()).sleeps
      = (List.range 2).map (fun k => 2 ^ k * 5) ∧
    (retryWithBackoff (constFailOp .pyTimeout) 3 ()).sleeps
      = (List.range 2).map (fun k => 2 ^ k * 3) ∧
    (retryWithBackoff (constFailOp (.exc "Gemini API overloaded (503): busy")) 3 ()).result
      = .raised (.exc "Gemini API overloaded (503): busy") ∧
    (∀ k, 2 ^ k * 3 < 2 ^ k * 5) :=
  c2_overload_timeout_bases 3 (by decide) "Gemini API overloaded (503): busy"
    (by decide) (by decide)

instance {ε α : Type} [DecidableEq ε] [DecidableEq α] : DecidableEq (Except ε α) := fun a b =>
  match a, b with
  | .error e1, .error e2 =>
    if h : e1 = e2 then .isTrue (by rw [h]) else .isFalse (fun hh => by cases hh; exact h rfl)
  | .ok a1, .ok a2 =>
    if h : a1 = a2 then .isTrue (by rw [h]) else .isFalse (fun hh => by cases hh; exact h rfl)
  | .error _, .ok _ => .isFalse (fun hh => by cases hh)
  | .ok _, .error _ => .isFalse (fun hh => by cases hh)

/-- Calls made on the key manager by the Gemini call path. -/
inductive KMCall where
  | markRateLimited (keyId : String) : KMCall
  | getKey : KMCall
  | markSuccess (keyId : String) : KMCall
deriving DecidableEq, Repr

/-- Parsed shape of a 200 response body as seen by `_parse_gemini_response`:
either a candidate with a text part, or anything else (which makes the parser
raise `No valid response from Gemini API`). -/
inductive GeminiBody where
  | valid (text : String) : GeminiBody
  | malformed : GeminiBody
deriving DecidableEq, Repr

/-- An HTTP response as observed by `_execute_request`: status code, the
parsed JSON body (consulted only on status 200), and the raw error text
(consulted by the non-200 branches for the exception message). -/
structure HttpResp where
  status : Nat
  body : GeminiBody
  errorText : String
deriving DecidableEq, Repr

/-- Mutable environment of `_call_gemini`'s `_execute_request` closure:
the key embedded in the request `url`, the `nonlocal` `api_key` and `key_id`
variables, plus observation logs of the HTTP requests issued (by the key the
`url` carries) and of the key-manager calls made. -/
structure GeminiCallState where
  urlKey : String
  apiKey : Option String
  keyId : Option String
  requests : List String
  kmCalls : List KMCall
deriving DecidableEq, Repr

/-- One attempt of `_execute_request` from `_call_gemini` (llm_service.py
lines 351-388). `km` is the key manager, modelled by the pair it would return
from `get_available_key` when a replacement is drawn (`none` when no key
manager is set); `respOf` maps the key carried by the url to the provider's
response. On 429 with a key manager and a key id, the attempt reports
`mark_key_rate_limited`, draws a replacement, rebinds the url when the drawn
key is truthy, and raises; on 503 or another non-200 it raises; on 200 it
parses the body, reports `mark_key_success` on success, and returns the text. -/
def executeRequest (km : Option (Option String × Option String))
    (respOf : String → HttpResp) (st : GeminiCallState) :
    GeminiCallState × Except Failure String :=
  let reqs := st.requests ++ [st.urlKey]
  let r := respOf st.urlKey
  if r.status = 429 then
    match km, st.keyId with
    | some draw, some kid =>
      let calls := st.kmCalls ++ [.markRateLimited kid, .getKey]
      let newUrlKey :=
        match draw.1 with
        | some k => if k = "" then st.urlKey else k
        | none => st.urlKey
      (⟨newUrlKey, draw.1, draw.2, reqs, calls⟩,
        .error (.exc ("Gemini API rate limit (429): " ++ r.errorText)))
    | _, _ =>
      ({ st with requests := reqs },
        .error (.exc ("Gemini API rate limit (429): " ++ r.errorText)))
  else if r.status = 503 then
    ({ st with requests := reqs },
      .error (.exc ("Gemini API overloaded (503): " ++ r.errorText)))
  else if r.status ≠ 200 then
    ({ st with requests := reqs },
      .error (.exc ("Gemini API error: " ++ r.errorText)))
  else
    match r.body with
    | .valid text =>
      match km, st.keyId with
      | some _, some kid =>
        ({ st with requests := reqs, kmCalls := st.kmCalls ++ [.markSuccess kid] }, .ok text)
      | _, _ => ({ st with requests := reqs }, .ok text)
    | .malformed =>
      ({ st with requests := reqs }, .error (.exc "No valid response from Gemini API"))

/-- Response script for the rotation scenario: key `K0` is rate-limited,
any other key answers 200 with text `hi`. -/
def demoResp : String → HttpResp := fun k =>
  if k = "K0" then ⟨429, .malformed, "quota"⟩ else ⟨200, .valid "hi", ""⟩

/-- Initial closure state of `_call_gemini` after `_get_gemini_config_async`
handed out key `K0` with id `id0`. -/
def demoInit : GeminiCallState := ⟨"K0", some "K0", some "id0", [], []⟩

/-- C4 counterexample: with a key manager holding replacement `K1` (which
would succeed: `demoResp "K1"` is a 200), an attempt that hits 429 on `K0`
issues exactly ONE HTTP request and surfaces the rate-limit error to the
retry wrapper — there is no inline second request with the replacement key
before the error is raised, contradicting the claimed inline retry. -/
theorem c4_no_inline_retry_cex :
    (executeRequest (some (some "K1", some "id1")) demoResp demoInit).1.requests = ["K0"] ∧
    (executeRequest (some (some "K1", some "id1")) demoResp demoInit).2
      = .error (.exc "Gemini API rate limit (429): quota") ∧
    demoResp "K1" = ⟨200, .valid "hi", ""⟩ := by
  decide

/-- C4 (corrected): on a 429 with a key manager in use, the attempt reports
`mark_key_rate_limited` on the used key's id, draws one replacement and
rebinds the request url to it, then raises the rate-limit error; the retry
happens through `_retry_with_backoff`, whose next attempt (after the 40 s
rate-limit wait) uses the replacement key. -/
theorem c4_rate_limit_key_rotation (respOf : String → HttpResp) (st : GeminiCallState)
    (body : GeminiBody) (etext k1 id0 : String) (nid : Option String)
    (hresp : respOf st.urlKey = ⟨429, body, etext⟩)
    (hkid : st.keyId = some id0)
    (hk1 : ¬(k1 = "")) :
    executeRequest (some (some k1, nid)) respOf st =
      (⟨k1, some k1, nid, st.requests ++ [st.urlKey],
          st.kmCalls ++ [.markRateLimited id0, .getKey]⟩,
        .error (.exc ("Gemini API rate limit (429): " ++ etext))) ∧
    retryWithBackoff (fun _ s => executeRequest (some (some "K1", some "id1")) demoResp s)
        3 demoInit =
      ⟨2, [40], .value "hi",
        ⟨"K1", some "K1", some "id1", ["K0", "K1"],
          [.markRateLimited "id0", .getKey, .markSuccess "id1"]⟩⟩ := by
  constructor
  · simp only [executeRequest, hresp, hkid, hk1, if_false, if_true]
  · decide

/-- C4 witness: instantiating the attempt-level statement on the concrete
rotation scenario. -/
theorem c4_rate_limit_key_rotation_wit :
    executeRequest (some (some "K1", some "id1")) demoResp demoInit =
      (⟨"K1", some "K1", some "id1", demoInit.requests ++ [demoInit.urlKey],
          demoInit.kmCalls ++ [.markRateLimited "id0", .getKey]⟩,
        .error (.exc ("Gemini API rate limit (429): " ++ "quota"))) ∧
    retryWithBackoff (fun _ s => executeRequest (some (some "K1", some "id1")) demoResp s)
        3 demoInit =
      ⟨2, [40], .value "hi",
        ⟨"K1", some "K1", some "id1", ["K0", "K1"],
          [.markRateLimited "id0", .getKey, .markSuccess "id1"]⟩⟩ :=
  c4_rate_limit_key_rotation demoResp demoInit .malformed "quota" "K1" "id0" (some "id1")
    (by decide) (by decide) (by decide)

/-- Modelled from the spec: lifecycle states of a key record (§4.2), used by
the KeyManager whose implementation (`services/api_key_manager.py`) is not in
the source tree — only its callers are. -/
inductive KeyState where
  | available : KeyState
  | rateLimited : KeyState
  | failed : KeyState
deriving DecidableEq, Repr

/-- Modelled from the spec: one credential entry (§3 KeyRecord), restricted
to the fields with behavioral effect on selection (the purely diagnostic
timestamps `last_used_at`, `last_success_at`, `last_error` are omitted —
the spec states they have no behavioral effect beyond display). -/
structure SpecKeyRecord where
  id : String
  secret : String
  enabled : Bool
  state : KeyState
  cooldownUntil : Option Nat
deriving DecidableEq, Repr

/-- Modelled from the spec: a key is eligible for selection when it is
enabled, its state is not `FAILED`, and its cooldown is unset or elapsed
(§4.2 selection step 2). -/
def eligibleAt (now : Nat) (k : SpecKeyRecord) : Bool :=
  k.enabled && !(k.state == KeyState.failed) &&
    (match k.cooldownUntil with
     | none => true
     | some t => decide (t ≤ now))

/-- Placeholder record for total indexing (never chosen: the index is always
in bounds when the eligible set is nonempty). -/
def dummyRecord : SpecKeyRecord := ⟨"", "", false, .available, none⟩

/-- Modelled from the spec: KeyManager state — the ordered pool plus the
in-memory round-robin cursor (§4.2 selection step 4). -/
structure SpecKMState where
  keys : List SpecKeyRecord
  cursor : Nat
deriving DecidableEq, Repr

/-- Modelled from the spec: `get_available_key` under the round-robin
strategy (§4.2): filter the pool to eligible keys; if none, return no key;
otherwise pick the eligible key at `cursor mod count` and advance the cursor
monotonically. `services/api_key_manager.py` is absent from the source tree,
so this follows the spec's words. -/
def get_available_key (now : Nat) (st : SpecKMState) :
    Option (String × String) × SpecKMState :=
  let elig := st.keys.filter (eligibleAt now)
  if elig.length = 0 then (none, st)
  else
    let k := elig.getD (st.cursor % elig.length) dummyRecord
    (some (k.secret, k.id), { st with cursor := st.cursor + 1 })

/-- `n` consecutive selections with no outcome reports in between. -/
def selectN (now : Nat) : Nat → SpecKMState → List (Option (String × String)) × SpecKMState
  | 0, st => ([], st)
  | n + 1, st =>
    let r := get_available_key now st
    let rest := selectN now n r.2
    (r.1 :: rest.1, rest.2)

/-- One selection step when every pooled key is eligible. -/
theorem gak_step (now : Nat) (st : SpecKMState)
    (h : ∀ k ∈ st.keys, eligibleAt now k = true) (hne : ¬(st.keys = [])) :
    get_available_key now st =
      (some ((st.keys.getD (st.cursor % st.keys.length) dummyRecord).secret,
        (st.keys.getD (st.cursor % st.keys.length) dummyRecord).id),
       ⟨st.keys, st.cursor + 1⟩) := by
  have hfil : st.keys.filter (eligibleAt now) = st.keys := List.filter_eq_self.mpr h
  have hlen : ¬(st.keys.length = 0) := by
    intro hh
    exact hne (List.length_eq_zero.mp hh)
  simp only [get_available_key, hfil, hlen, if_false]

/-- Unrolling of `n` consecutive selections over a fully eligible pool:
the `i`-th output is the key at index `(cursor + i) mod N` and the cursor
advances by `n`. -/
theorem selectN_all_elig (now : Nat) :
    ∀ (n : Nat) (st : SpecKMState),
      (∀ k ∈ st.keys, eligibleAt now k = true) → ¬(st.keys = []) →
      (selectN now n st).1 =
        (List.range n).map (fun i =>
          some ((st.keys.getD ((st.cursor + i) % st.keys.length) dummyRecord).secret,
            (st.keys.getD ((st.cursor + i) % st.keys.length) dummyRecord).id)) ∧
      (selectN now n st).2 = ⟨st.keys, st.cursor + n⟩ := by
  intro n
  induction n with
  | zero =>
    intro st h hne
    exact ⟨rfl, rfl⟩
  | succ m ih =>
    intro st h hne
    have hstep := gak_step now st h hne
    have ih' := ih ⟨st.keys, st.cursor + 1⟩ h hne
    rcases ih' with ⟨ih1, ih2⟩
    constructor
    · simp only [selectN, hstep]
      rw [ih1, List.range_succ_eq_map]
      simp only [List.map_cons, List.map_map, Nat.add_zero]
      congr 1
      apply List.map_congr_left
      intro i _
      simp only [Function.comp_apply]
      have harg : st.cursor + 1 + i = st.cursor + (i + 1) := by omega
      rw [harg]
    · simp only [selectN, hstep]
      rw [ih2]
      simp only [SpecKMState.mk.injEq, true_and]
      omega

/-- C3 (confirmed, spec-modelled): over a pool of `N` enabled, eligible keys
with distinct ids and no failure reports in between, `N` consecutive calls to
`get_available_key` return the pool in a stable cyclic order (a rotation of
the pool starting at the cursor), each key exactly once, and the cursor
advances monotonically by `N`. -/
theorem c3_round_robin_fair (now : Nat) (st : SpecKMState)
    (helig : ∀ k ∈ st.keys, eligibleAt now k = true)
    (hne : ¬(st.keys = []))
    (hnodup : (st.keys.map SpecKeyRecord.id).Nodup) :
    (selectN now st.keys.length st).1 =
      (st.keys.rotate (st.cursor % st.keys.length)).map (fun k => some (k.secret, k.id)) ∧
    (∀ k ∈ st.keys,
      @List.count (Option (String × String)) instBEqOfDecidableEq
        (some (k.secret, k.id)) (selectN now st.keys.length st).1 = 1) ∧
    (selectN now st.keys.length st).2.cursor = st.cursor + st.keys.length := by
  obtain ⟨h1, h2⟩ := selectN_all_elig now st.keys.length st helig hne
  have hlen : 0 < st.keys.length := List.length_pos.mpr hne
  have hrot : (selectN now st.keys.length st).1 =
      (st.keys.rotate (st.cursor % st.keys.length)).map (fun k => some (k.secret, k.id)) := by
    rw [h1]
    apply List.ext_getElem
    · simp
    · intro i hi1 hi2
      have hiN : i < st.keys.length := by simpa using hi1
      have hlt : (st.cursor + i) % st.keys.length < st.keys.length := Nat.mod_lt _ hlen
      have hidx : (st.cursor + i) % st.keys.length
          = (i + st.cursor % st.keys.length) % st.keys.length := by
        have hmod : st.cursor % st.keys.length + i ≡ st.cursor + i [MOD st.keys.length] :=
          (Nat.mod_modEq st.cursor st.keys.length).add_right i
        have heq : (st.cursor % st.keys.length + i) % st.keys.length
            = (st.cursor + i) % st.keys.length := hmod
        rw [← heq, Nat.add_comm]
      simp only [List.getElem_map, List.getElem_range, List.getElem_rotate]
      rw [List.getD_eq_getElem st.keys dummyRecord hlt]
      simp only [hidx]
  refine ⟨hrot, ?_, ?_⟩
  · intro k hk
    have hperm : (selectN now st.keys.length st).1.Perm
        (st.keys.map (fun j => some (j.secret, j.id))) := by
      rw [hrot]
      exact (List.rotate_perm st.keys (st.cursor % st.keys.length)).map _
    have hgf : (st.keys.map (fun j => some (j.secret, j.id))).map
        (fun o => (Option.getD o ("", "")).2) = st.keys.map SpecKeyRecord.id := by
      rw [List.map_map]
      rfl
    have hnodupf : (st.keys.map (fun j => some (j.secret, j.id))).Nodup :=
      List.Nodup.of_map _ (by rw [hgf]; exact hnodup)
    have hmem : some (k.secret, k.id) ∈ st.keys.map (fun j => some (j.secret, j.id)) :=
      List.mem_map_of_mem _ hk
    rw [hperm.count_eq]
    exact List.count_eq_one_of_mem hnodupf hmem
  · rw [h2]

/-- Demo pool for the round-robin scenario: two enabled, eligible keys. -/
def demoPool : SpecKMState :=
  ⟨[⟨"a", "sA", true, .available, none⟩, ⟨"b", "sB", true, .available, none⟩], 0⟩

/-- C3 witness: on the two-key demo pool, two consecutive selections return
the pool in rotation order, each key exactly once, and advance the cursor. -/
theorem c3_round_robin_fair_wit :
    (selectN 0 demoPool.keys.length demoPool).1 =
      (demoPool.keys.rotate (demoPool.cursor % demoPool.keys.length)).map
        (fun k => some (k.secret, k.id)) ∧
    (∀ k ∈ demoPool.keys,
      @List.count (Option (String × String)) instBEqOfDecidableEq
        (some (k.secret, k.id)) (selectN 0 demoPool.keys.length demoPool).1 = 1) ∧
    (selectN 0 demoPool.keys.length demoPool).2.cursor
      = demoPool.cursor + demoPool.keys.length :=
  c3_round_robin_fair 0 demoPool (by decide) (by decide) (by decide)

/-- The `gemini` section of the configuration as read by
`_get_gemini_config_async`: `cfg.get("apiKey")` (absent modelled as `none`)
and `cfg.get("model", "gemini-2.5-flash")`. -/
structure GeminiCfg where
  apiKey : Option String
  model : Option String
deriving DecidableEq, Repr

/-- `cfg.get("model", "gemini-2.5-flash")`. -/
def geminiModelOf (cfg : GeminiCfg) : String :=
  cfg.model.getD "gemini-2.5-flash"

/-- The base url built from the model name. -/
def geminiBaseUrl (cfg : GeminiCfg) : String :=
  "https://generativelanguage.googleapis.com/v1beta/models/" ++ geminiModelOf cfg

/-- `_get_gemini_config_async` from `llm_service.py` (lines 34-52): try the
key manager first (a drawn key is used only when truthy, i.e. not `None` and
not empty); otherwise fall back to the single configured `apiKey`; raise
`Gemini API key not configured` when that is falsy too. `km` is the key
manager modelled by the `(api_key, key_id)` pair `get_available_key` would
return, `none` when no key manager is set. -/
def _get_gemini_config_async (km : Option (Option String × Option String))
    (cfg : GeminiCfg) : Except String (String × String × String × Option String) :=
  let fromKM : Option (String × Option String) :=
    match km with
    | some (some k, kid) => if k = "" then none else some (k, kid)
    | some (none, _) => none
    | none => none
  match fromKM with
  | some (k, kid) => .ok (k, geminiModelOf cfg, geminiBaseUrl cfg, kid)
  | none =>
    match cfg.apiKey with
    | some k =>
      if k = "" then .error "Gemini API key not configured"
      else .ok (k, geminiModelOf cfg, geminiBaseUrl cfg, none)
    | none => .error "Gemini API key not configured"

/-- C7 (confirmed): when key selection yields no key (no manager, or the
manager returned a falsy key), the config resolution falls back to the
statically configured `apiKey` when it is non-empty, and fails with the
no-key error when that fallback is absent or empty. -/
theorem c7_fallback_single_key (km : Option (Option String × Option String))
    (cfg : GeminiCfg)
    (hnokey : ∀ ko kid, km = some (ko, kid) → ko = none ∨ ko = some "") :
    (∀ k, cfg.apiKey = some k → ¬(k = "") →
      _get_gemini_config_async km cfg
        = .ok (k, geminiModelOf cfg, geminiBaseUrl cfg, none)) ∧
    ((cfg.apiKey = none ∨ cfg.apiKey = some "") →
      _get_gemini_config_async km cfg = .error "Gemini API key not configured") := by
  constructor
  · intro k hk hkne
    rcases km with _ | ⟨ko, kid⟩
    · simp [_get_gemini_config_async, hk, hkne]
    · rcases hnokey ko kid rfl with h | h
      · subst h
        simp [_get_gemini_config_async, hk, hkne]
      · subst h
        simp [_get_gemini_config_async, hk, hkne]
  · intro hcase
    rcases km with _ | ⟨ko, kid⟩
    · rcases hcase with h | h <;> simp [_get_gemini_config_async, h]
    · rcases hnokey ko kid rfl with h2 | h2 <;> subst h2 <;>
        rcases hcase with h | h <;> simp [_get_gemini_config_async, h]

/-- C7 witness: a key manager that yields no key plus a configured fallback
key resolves to the fallback with no key id. -/
theorem c7_fallback_single_key_wit :
    _get_gemini_config_async (some (none, none)) ⟨some "FALLBACK", none⟩ =
      .ok ("FALLBACK", geminiModelOf ⟨some "FALLBACK", none⟩,
        geminiBaseUrl ⟨some "FALLBACK", none⟩, none) :=
  (c7_fallback_single_key (some (none, none)) ⟨some "FALLBACK", none⟩
    (by intro ko kid h; cases h; exact Or.inl rfl)).1 "FALLBACK" rfl (by decide)

/-- `mask_key` from `routers/config.py` (lines 50-55): empty stays empty,
length ≤ 8 is fully replaced by `*`, otherwise the first 4 and last 4
characters are kept and the middle is replaced by `*`. -/
def mask_key (key : String) : String :=
  if key.data.length = 0 then ""
  else if key.data.length ≤ 8 then ⟨List.replicate key.data.length '*'⟩
  else
    ⟨key.data.take 4 ++ List.replicate (key.data.length - 8) '*'
      ++ key.data.drop (key.data.length - 4)⟩

/-- C8 (confirmed): masking preserves length, fully masks secrets of length
≤ 8, keeps only the first 4 and last 4 characters otherwise, and every
middle character (positions 4 ≤ i < length − 4) of the masked form is the
filler `*`. -/
theorem c8_mask_key_props (key : String) :
    (mask_key key).data.length = key.data.length ∧
    (key.data.length ≤ 8 → (mask_key key).data = List.replicate key.data.length '*') ∧
    (8 < key.data.length → (mask_key key).data =
      key.data.take 4 ++ List.replicate (key.data.length - 8) '*'
        ++ key.data.drop (key.data.length - 4)) ∧
    (∀ i, 4 ≤ i → i + 4 < key.data.length → (mask_key key).data[i]? = some '*') := by
  have hm : (mask_key key).data =
      if key.data.length = 0 then []
      else if key.data.length ≤ 8 then List.replicate key.data.length '*'
      else key.data.take 4 ++ List.replicate (key.data.length - 8) '*'
        ++ key.data.drop (key.data.length - 4) := by
    unfold mask_key
    split
    · rfl
    · split
      · rfl
      · rfl
  refine ⟨?_, ?_, ?_, ?_⟩
  · rw [hm]
    split
    · next h => simp [h]
    · split
      · simp
      · next h1 h2 =>
        simp only [List.length_append, List.length_take, List.length_replicate,
          List.length_drop]
        omega
  · intro hle
    rw [hm]
    split
    all_goals first
      | rfl
      | (next h => simp [h])
  · intro hgt
    rw [hm]
    split
    all_goals try omega
    all_goals split
    all_goals first
      | rfl
      | omega
  · intro i h4 hlen
    rw [hm]
    split
    all_goals try omega
    all_goals split
    all_goals try omega
    all_goals
      rw [List.append_assoc, List.getElem?_append_right, List.length_take]
      · have hmin : min 4 key.data.length = 4 := by omega
        rw [hmin, List.getElem?_append_left, List.getElem?_replicate, if_pos]
        · omega
        · simp only [List.length_replicate]
          omega
      · simp only [List.length_take]
        omega

/-- C8 witness: a 13-character secret keeps its length, matches the
first-4/filler/last-4 shape, and has `*` at middle position 5. -/
theorem c8_mask_key_props_wit :
    (mask_key "ABCDEFGHIJKLM").data.length = ("ABCDEFGHIJKLM" : String).data.length ∧
    (8 < ("ABCDEFGHIJKLM" : String).data.length → (mask_key "ABCDEFGHIJKLM").data =
      ("ABCDEFGHIJKLM" : String).data.take 4
        ++ List.replicate (("ABCDEFGHIJKLM" : String).data.length - 8) '*'
        ++ ("ABCDEFGHIJKLM" : String).data.drop (("ABCDEFGHIJKLM" : String).data.length - 4)) ∧
    (mask_key "ABCDEFGHIJKLM").data[5]? = some '*' :=
  ⟨(c8_mask_key_props "ABCDEFGHIJKLM").1, (c8_mask_key_props "ABCDEFGHIJKLM").2.2.1,
    (c8_mask_key_props "ABCDEFGHIJKLM").2.2.2 5 (by decide) (by decide)⟩

/-- A code block extracted from a markdown response (`models/chat.py`). -/
structure CodeBlockM where
  language : String
  code : String
deriving DecidableEq, Repr

/-- The `StreamEvent` payloads emitted by `chat_stream`'s `event_generator`
(`routers/chat.py`): a content chunk, an extracted code block, the done
event carrying conversation id and provider metadata, or a terminal error. -/
inductive StreamEventM where
  | content (chunk : String) : StreamEventM
  | codeBlock (cb : CodeBlockM) : StreamEventM
  | doneEv (conversationId : String) (provider : String) : StreamEventM
  | errorEv (msg : String) : StreamEventM
deriving DecidableEq, Repr

/-- Outcome of iterating `generate_response_stream`: the chunks successfully
yielded, and — when the underlying generator raised — the exception message
(`none` when the stream completed normally). -/
structure StreamSource where
  chunks : List String
  failure : Option String
deriving DecidableEq, Repr

/-- `event_generator` from `chat_stream` (`routers/chat.py` lines 81-119):
inside the `try`, each received chunk is yielded as a content event and
accumulated; on normal completion the code blocks of the full content and a
final done event are emitted; the `except Exception` clause turns any raised
exception into a terminal error event instead of letting it escape.
`extract` abstracts `extract_code_blocks`. -/
def event_generator (extract : String → List CodeBlockM)
    (conversationId provider : String) (src : StreamSource) : List StreamEventM :=
  let contentEvents := src.chunks.map StreamEventM.content
  match src.failure with
  | some msg => contentEvents ++ [.errorEv msg]
  | none =>
    let full := String.join src.chunks
    contentEvents ++ (extract full).map .codeBlock
      ++ [.doneEv conversationId provider]

/-- C9 (confirmed): whatever exception the streaming response raises and
however many chunks were already delivered, the generator's output is the
delivered content events followed by a single terminal error event carrying
the message — the stream always ends in an event, never in an escaped
exception; error events appear only on the failure path. -/
theorem c9_stream_error_event (extract : String → List CodeBlockM)
    (cid prov : String) (src : StreamSource) :
    (∀ msg, src.failure = some msg →
      event_generator extract cid prov src
        = src.chunks.map StreamEventM.content ++ [.errorEv msg] ∧
      (event_generator extract cid prov src).getLast? = some (.errorEv msg)) ∧
    (src.failure = none →
      (event_generator extract cid prov src).getLast? = some (.doneEv cid prov) ∧
      ∀ msg, StreamEventM.errorEv msg ∉ event_generator extract cid prov src) := by
  constructor
  · intro msg hmsg
    have hev : event_generator extract cid prov src
        = src.chunks.map StreamEventM.content ++ [.errorEv msg] := by
      simp only [event_generator, hmsg]
    refine ⟨hev, ?_⟩
    rw [hev, List.getLast?_append]
    rfl
  · intro hnone
    have hev : event_generator extract cid prov src
        = src.chunks.map StreamEventM.content
          ++ ((extract (String.join src.chunks)).map StreamEventM.codeBlock
            ++ [.doneEv cid prov]) := by
      simp only [event_generator, hnone, List.append_assoc]
    constructor
    · rw [hev, List.getLast?_append, List.getLast?_append]
      rfl
    · intro msg hmem
      rw [hev] at hmem
      rcases List.mem_append.mp hmem with h | h
      · rcases List.mem_map.mp h with ⟨c, _, hc⟩
        cases hc
      · rcases List.mem_append.mp h with h2 | h2
        · rcases List.mem_map.mp h2 with ⟨c, _, hc⟩
          cases hc
        · rcases List.mem_singleton.mp h2 with h3
          cases h3

/-- C9 witness: a stream that yields two chunks and then raises ends with
the terminal error event. -/
theorem c9_stream_error_event_wit :
    event_generator (fun _ => []) "conv1" "gemini" ⟨["a", "b"], some "boom"⟩
      = (["a", "b"].map StreamEventM.content) ++ [.errorEv "boom"] ∧
    (event_generator (fun _ => []) "conv1" "gemini" ⟨["a", "b"], some "boom"⟩).getLast?
      = some (.errorEv "boom") :=
  (c9_stream_error_event (fun _ => []) "conv1" "gemini" ⟨["a", "b"], some "boom"⟩).1
    "boom" rfl

/-- A stored key entry of the persisted multi-key list (default empty). -/
structure StoredKey where
  key : String
  enabled : Bool
deriving DecidableEq, Repr

/-- The `gemini` section of `_default_config` (`config_manager.py`). -/
structure GeminiSection where
  apiKey : String
  model : String
  keys : List StoredKey
  activeKeyIndex : Nat
  rotationStrategy : String
deriving DecidableEq, Repr

/-- The `vllm` section of `_default_config`. -/
structure VllmSection where
  endpoint : String
  apiKey : String
  model : String
deriving DecidableEq, Repr

/-- The `openai` section of `_default_config`. -/
structure OpenaiSection where
  apiKey : String
  model : String
deriving DecidableEq, Repr

/-- The `server` section of `_default_config`. -/
structure ServerSection where
  host : String
  port : Nat
deriving DecidableEq, Repr

/-- The configuration document persisted by `ConfigManager`. -/
structure AppConfig where
  provider : String
  gemini : GeminiSection
  vllm : VllmSection
  openai : OpenaiSection
  server : ServerSection
deriving DecidableEq, Repr

/-- `_default_config` from `config_manager.py` (lines 76-94). -/
def _default_config : AppConfig :=
  ⟨"gemini",
    ⟨"", "gemini-2.5-flash", [], 0, "round-robin"⟩,
    ⟨"http://localhost:8000", "", "meta-llama/Llama-2-7b-chat-hf"⟩,
    ⟨"", "gpt-4"⟩,
    ⟨"0.0.0.0", 8000⟩⟩

/-- Outcome of opening and JSON-parsing the config file, matching the
branches of `_load_config`: the file does not exist, reading raises
`OSError`, the contents fail JSON parsing (`json.JSONDecodeError`), or the
file parses to a configuration document. -/
inductive ConfigFileState where
  | missing : ConfigFileState
  | unreadable : ConfigFileState
  | invalidJson : ConfigFileState
  | parsed (cfg : AppConfig) : ConfigFileState
deriving DecidableEq, Repr

/-- `_load_config` from `config_manager.py` (lines 64-74): return the
default when the file is missing, and catch `JSONDecodeError` and `OSError`
by returning the default; otherwise return the parsed document. -/
def _load_config : ConfigFileState → AppConfig
  | .missing => _default_config
  | .unreadable => _default_config
  | .invalidJson => _default_config
  | .parsed cfg => cfg

/-- `get_config` (lines 96-100): reload from the file and return a copy. -/
def get_config (fs : ConfigFileState) : AppConfig :=
  _load_config fs

/-- C10 (confirmed): configuration loading is total over file states —
every non-parsed state (missing file, unreadable file, invalid JSON) yields
the default configuration (provider `gemini` with the default per-provider
settings) instead of raising, and `get_config` always returns the loaded
configuration document. -/
theorem c10_load_config_total (fs : ConfigFileState) :
    (fs = .missing ∨ fs = .unreadable ∨ fs = .invalidJson →
      _load_config fs = _default_config) ∧
    (∀ cfg, fs = .parsed cfg → _load_config fs = cfg) ∧
    get_config fs = _load_config fs ∧
    _default_config.provider = "gemini" ∧
    _default_config.gemini = ⟨"", "gemini-2.5-flash", [], 0, "round-robin"⟩ ∧
    _default_config.vllm = ⟨"http://localhost:8000", "", "meta-llama/Llama-2-7b-chat-hf"⟩ ∧
    _default_config.openai = ⟨"", "gpt-4"⟩ := by
  refine ⟨?_, ?_, rfl, rfl, rfl, rfl, rfl⟩
  · intro h
    rcases h with h | h | h <;> subst h <;> rfl
  · intro cfg h
    subst h
    rfl

/-- C10 witness: an invalid-JSON file state loads the default configuration. -/
theorem c10_load_config_total_wit :
    _load_config .invalidJson = _default_config ∧
    get_config .invalidJson = _load_config .invalidJson :=
  ⟨(c10_load_config_total .invalidJson).1 (Or.inr (Or.inr rfl)),
    (c10_load_config_total .invalidJson).2.2.1⟩

end LlmSpec
